import Mathlib

/-!
Verification of `scrape_prices.py`: a shallow embedding of the pure core of
the scraper (price-cell parsing, snapshot writing, bounded history appending,
and HTML price injection), together with theorems about the properties the
specification states.

Modelling conventions:
* JSON values produced by `json.dumps`/consumed by `json.loads` are the
  inductive `Json`; Python numbers are exact rationals `ℚ`.
* A `datetime` value is modelled by the projections the program observes:
  `isoformat()`, `strftime("%d/%m/%Y")`, `strftime("%H:%M:%S")` and
  `weekday()` (Monday = 0 … Sunday = 6).
* File contents are passed explicitly: `Option` distinguishes an absent file,
  and each writer returns the content it writes (or an error).
-/

set_option autoImplicit false

namespace CotacoesCafe

/-- JSON values: the possible results of a successful `json.loads`. -/
inductive Json where
  | null : Json
  | bool (b : Bool) : Json
  | num (q : ℚ) : Json
  | str (s : String) : Json
  | arr (elems : List Json) : Json
  | obj (fields : List (String × Json)) : Json

/-- Field lookup in a JSON object (`none` on non-objects or missing keys). -/
def jlookup (j : Json) (key : String) : Option Json :=
  match j with
  | .obj fields => fields.lookup key
  | _ => none

/-- The slice of a Python `datetime` value that `scrape_prices.py` observes:
`isoformat()`, `strftime("%d/%m/%Y")`, `strftime("%H:%M:%S")` and
`weekday()` (Monday = 0, …, Sunday = 6). -/
structure PyDateTime where
  iso : String
  dmy : String
  hms : String
  weekday : ℕ

/-- Source function `is_market_open`: `datetime.now().weekday() < 5`.
The function reads the wall clock itself, so the clock value it observes is
an explicit parameter here. -/
def is_market_open (clock : PyDateTime) : Bool :=
  clock.weekday < 5

/-- Source function `update_prices`: the JSON document written to
`prices.json`.  `now` is the caller-supplied capture timestamp; `clock` is
the wall-clock datetime that `is_market_open()` reads via `datetime.now()`
when the writer runs.  `trade_date` is accepted (as in the source) and,
exactly as in the source, never used. -/
def update_prices (price_arabica price_conilon : ℚ) (trade_date : String)
    (now : PyDateTime) (clock : PyDateTime) : Json :=
  let arabica_obj : Json := .obj
    [("preco", .num price_arabica), ("unidade", .str "saca"),
     ("peso_kg", .num 60), ("moeda", .str "BRL")]
  let robusta_obj : Json := .obj
    [("preco", .num price_conilon), ("unidade", .str "saca"),
     ("peso_kg", .num 60), ("moeda", .str "BRL")]
  .obj
    [("ultima_atualizacao", .str now.iso),
     ("data_formatada", .str now.dmy),
     ("hora_formatada", .str now.hms),
     ("pregao_aberto", .bool (is_market_open clock)),
     ("fonte", .str "Notícias Agrícolas"),
     ("cafe", .obj
        [("arabica", arabica_obj),
         ("robusta", robusta_obj),
         ("conilon", robusta_obj)])]

/-- The state of the history file as `update_history` perceives it after
`read_text` + `json.loads`: either the text fails to decode
(`JSONDecodeError`), or it decodes to some JSON value. -/
inductive HistoryFile where
  | corrupt : HistoryFile
  | val (j : Json) : HistoryFile

/-- The arabica history entry built by `update_history`. -/
def entry_arabica (price : ℚ) (trade_date : String) (now : PyDateTime) : Json :=
  .obj
    [("referente_a", .str trade_date),
     ("coletado_em", .str now.iso),
     ("produto", .str "cafe"),
     ("tipo", .str "arabica"),
     ("valor", .num price),
     ("unidade", .str "saca"),
     ("moeda", .str "BRL")]

/-- The conilon/robusta history entry built by `update_history`; the source
deliberately spells the type `"conillon"` (double l), per its comment
`use "conillon" spelling expected by the site`. -/
def entry_conillon (price : ℚ) (trade_date : String) (now : PyDateTime) : Json :=
  .obj
    [("referente_a", .str trade_date),
     ("coletado_em", .str now.iso),
     ("produto", .str "cafe"),
     ("tipo", .str "conillon"),
     ("valor", .num price),
     ("unidade", .str "saca"),
     ("moeda", .str "BRL")]

/-- Loading the prior history inside `update_history`: an absent file or a
`JSONDecodeError` yields the empty list (the `except` branch); valid JSON
that is not an array is bound to `history` unchanged, and the subsequent
`history.append(...)` raises `AttributeError` (uncaught, so the run fails
before any write). -/
def load_history : Option HistoryFile → Except String (List Json)
  | none => .ok []
  | some .corrupt => .ok []
  | some (.val (.arr elems)) => .ok elems
  | some (.val _) => .error "AttributeError"

/-- Source function `update_history`: returns the JSON array written to the
history file, or the uncaught Python exception.  The two new entries are
appended at the end and the list is truncated to its last 20 elements
(`history[-20:]`). -/
def update_history (file : Option HistoryFile) (price_arabica price_conilon : ℚ)
    (trade_date : String) (now : PyDateTime) : Except String (List Json) :=
  match load_history file with
  | .error e => .error e
  | .ok history =>
      let history := history ++
        [entry_arabica price_arabica trade_date now,
         entry_conillon price_conilon trade_date now]
      .ok (history.drop (history.length - 20))

/-- The list `update_history` starts from when loading succeeds. -/
def loaded_list : Option HistoryFile → List Json
  | some (.val (.arr elems)) => elems
  | _ => []

/-- The per-run inputs of `update_history` (the two fetched prices, the
trade date and the capture timestamp). -/
structure RunInput where
  price_arabica : ℚ
  price_conilon : ℚ
  trade_date : String
  now : PyDateTime

/-- One run of `update_history` as a transition on the history-file state:
on success the file now holds the written array; on an uncaught exception
the file is left unchanged. -/
def run_history (file : Option HistoryFile) (i : RunInput) : Option HistoryFile :=
  match update_history file i.price_arabica i.price_conilon i.trade_date i.now with
  | .ok h => some (.val (.arr h))
  | .error _ => file

/-- A sequence of runs of `update_history`, oldest first. -/
def run_all (file : Option HistoryFile) (inputs : List RunInput) : Option HistoryFile :=
  inputs.foldl run_history file

/-- Characters stripped from both ends by Python `str.strip()` /
BeautifulSoup `get_text(strip=True)`. -/
def trimChars (l : List Char) : List Char :=
  ((l.dropWhile Char.isWhitespace).reverse.dropWhile Char.isWhitespace).reverse

/-- Python `str.strip()` (and `get_text(strip=True)` on a plain text cell):
drop leading and trailing whitespace. -/
def pyStrip (s : String) : String :=
  String.mk (trimChars s.data)

/-- Python `str.replace(a, "")` for a single-character pattern: delete every
occurrence of the character. -/
def removeChar (a : Char) (s : String) : String :=
  String.mk (s.data.filter fun c => c ≠ a)

/-- Python `str.replace` with a single-character pattern and a
single-character replacement: a character-wise map. -/
def replaceChar (a b : Char) (s : String) : String :=
  String.mk (s.data.map fun c => if c = a then b else c)

/-- Split a character list on a separator character
(Python `str.split` semantics: `n` separators yield `n + 1` groups). -/
def splitOnChar (sep : Char) : List Char → List (List Char)
  | [] => [[]]
  | c :: cs =>
      if c = sep then [] :: splitOnChar sep cs
      else
        match splitOnChar sep cs with
        | g :: gs => (c :: g) :: gs
        | [] => [[c]]

/-- Numeric value of a decimal digit character, `none` on non-digits. -/
def digitVal (c : Char) : Option ℕ :=
  if '0' ≤ c ∧ c ≤ '9' then some (c.toNat - 48) else none

/-- Parse a run of decimal digit characters. -/
def parseDigits : List Char → Option (List ℕ)
  | [] => some []
  | c :: cs =>
      match digitVal c, parseDigits cs with
      | some d, some ds => some (d :: ds)
      | _, _ => none

/-- Value of a big-endian digit list. -/
def digitsVal (ds : List ℕ) : ℕ :=
  ds.foldl (fun acc d => 10 * acc + d) 0

/-- Python `float()` applied to a plain decimal string, modelled as exact
decimal parsing into `ℚ`: optional surrounding whitespace, optional sign,
digits with at most one `.` and at least one digit.  `none` models the
`ValueError` that `float()` raises on anything else.  (The exponent and
inf/nan forms `float()` also accepts never arise from the scraped price
strings and are not modelled.) -/
def pyFloat (s : String) : Option ℚ :=
  let cs := trimChars s.data
  let signed : ℚ × List Char :=
    match cs with
    | '-' :: rest => (-1, rest)
    | '+' :: rest => (1, rest)
    | _ => (1, cs)
  match splitOnChar '.' signed.2 with
  | [ip] =>
      if ip.isEmpty then none
      else match parseDigits ip with
        | some ds => some (signed.1 * digitsVal ds)
        | none => none
  | [ip, fp] =>
      if ip.isEmpty ∧ fp.isEmpty then none
      else match parseDigits ip, parseDigits fp with
        | some ids, some fds =>
            some (signed.1 * ((digitsVal ids : ℚ) +
              (digitsVal fds : ℚ) / (10 : ℚ) ^ fp.length))
        | _, _ => none
  | _ => none

/-- The pure core of `parse_price` from the source: its input is the list of
raw cell texts of the first row of the first table body, in order
(`row.find_all("td")`); `get_text(strip=True)` on a plain text cell is
modelled by `pyStrip`.  Cell 0 is the reference date, cell 1 is the
price with `.` removed and `,` replaced by `.`, parsed by `float`.  `none`
models the exception the source raises when fewer than two cells exist or
the numeric parse fails. -/
def parse_price (cells : List String) : Option (String × ℚ) :=
  match cells with
  | c0 :: c1 :: _ =>
      let date_str := pyStrip c0
      let price_str := replaceChar ',' '.' (removeChar '.' (pyStrip c1))
      match pyFloat price_str with
      | some price => some (date_str, price)
      | none => none
  | _ => none

/-- Character of a decimal digit (`0 ≤ d ≤ 9`). -/
def digitChar (d : ℕ) : Char := Char.ofNat (48 + d)

/-- Little-endian decimal digits of `n`, with an explicit fuel argument so
that the recursion is structural (`fuel ≥ n` suffices). -/
def littleDigitsAux : ℕ → ℕ → List Char
  | _, 0 => []
  | 0, _ + 1 => []
  | n + 1, fuel + 1 => digitChar ((n + 1) % 10) :: littleDigitsAux ((n + 1) / 10) fuel

/-- Little-endian decimal digit characters of `n` (`['0']` for 0), as
rendered by Python's integer formatting. -/
def littleDigits (n : ℕ) : List Char :=
  if n = 0 then ['0'] else littleDigitsAux n n

/-- Insert `sep` after every third character of a little-endian digit list:
the thousands grouping of Python's `,` format specifier, seen from the
least significant end. -/
def group3 (sep : Char) : List Char → List Char
  | a :: b :: c :: d :: rest => a :: b :: c :: sep :: group3 sep (d :: rest)
  | l => l

/-- The two fractional digits of a cents value `n < 100`, zero-padded. -/
def twoDigitChars (n : ℕ) : List Char :=
  [digitChar (n / 10), digitChar (n % 10)]

/-- Round a rational to the nearest integer, ties to the even neighbour:
the rounding Python's fixed-point float formatting performs. -/
def roundHalfEven (q : ℚ) : ℤ :=
  let f := ⌊q⌋
  if q - f < 1 / 2 then f
  else if (1 : ℚ) / 2 < q - f then f + 1
  else if f % 2 = 0 then f else f + 1

/-- The characters of Python `f"{value:,.2f}"`: the value rounded to two
decimals (ties to even), integer digits grouped in threes by `,`, a `.`
decimal point, exactly two fractional digits, and a leading `-` for
negative values. -/
def pyFormatComma2Chars (value : ℚ) : List Char :=
  let n := (roundHalfEven (100 * |value|)).toNat
  let core := (group3 ',' (littleDigits (n / 100))).reverse ++
    '.' :: twoDigitChars (n % 100)
  if value < 0 then '-' :: core else core

/-- Python `f"{value:,.2f}"` as a string. -/
def pyFormatComma2 (value : ℚ) : String :=
  String.mk (pyFormatComma2Chars value)

/-- Source function `format_brl`: the format `f"R${value:,.2f}"` followed by
the chain `.replace(",", "X").replace(".", ",").replace("X", ".")`. -/
def format_brl (value : ℚ) : String :=
  replaceChar 'X' '.' (replaceChar '.' ','
    (replaceChar ',' 'X' ("R$" ++ pyFormatComma2 value)))

/-- The display document as `update_index_html` observes it: the optional
text content of the two anchor elements `preco-arabica` and `preco-robusta`
(`none` when the element is absent from the document), and the remainder of
the document, which the patcher never touches. -/
structure IndexHtml where
  preco_arabica : Option String
  preco_robusta : Option String
  rest : String

/-- Source function `update_index_html`, as a function from the current
document (`none` when `index.html` does not exist) to the content written
back (`none` when nothing is written).  A missing file returns immediately;
a missing anchor is skipped by its `if` guard; when the file exists it is
always rewritten. -/
def update_index_html (doc : Option IndexHtml)
    (arabica_price conilon_price : ℚ) : Option IndexHtml :=
  match doc with
  | none => none
  | some d =>
      let d1 := match d.preco_arabica with
        | some _ => { d with preco_arabica := some (format_brl arabica_price) }
        | none => d
      let d2 := match d1.preco_robusta with
        | some _ => { d1 with preco_robusta := some (format_brl conilon_price) }
        | none => d1
      some d2

/-- A sample capture timestamp (a Friday, weekday 4), used to instantiate
theorems at concrete inputs. -/
def sampleNow : PyDateTime :=
  ⟨"2025-09-19T18:20:18", "19/09/2025", "18:20:18", 4⟩

/-- A sample run of the scraper (both fetched prices, trade date, capture
timestamp). -/
def sampleRun : RunInput :=
  ⟨2292.66, 1402.21, "19/09/2025", sampleNow⟩

/-- A capture timestamp falling on a Saturday (weekday 5). -/
def saturdayNow : PyDateTime :=
  ⟨"2025-09-20T23:59:59", "20/09/2025", "23:59:59", 5⟩

/-- A wall-clock datetime falling on a Monday (weekday 0). -/
def mondayClock : PyDateTime :=
  ⟨"2025-09-22T00:00:05", "22/09/2025", "00:00:05", 0⟩

/-! ## Helper lemmas -/

theorem update_history_ok_eq (file : Option HistoryFile) (pa pc : ℚ)
    (td : String) (now : PyDateTime) (h : List Json)
    (hok : update_history file pa pc td now = .ok h) :
    h = (loaded_list file ++ [entry_arabica pa td now, entry_conillon pc td now]).drop
      ((loaded_list file ++ [entry_arabica pa td now, entry_conillon pc td now]).length - 20) := by
  rcases file with _ | f
  · simpa [update_history, load_history, loaded_list] using hok.symm
  · rcases f with _ | j
    · simpa [update_history, load_history, loaded_list] using hok.symm
    · rcases j with _ | b | q | s | elems | fields
      · exact absurd hok (by simp [update_history, load_history])
      · exact absurd hok (by simp [update_history, load_history])
      · exact absurd hok (by simp [update_history, load_history])
      · exact absurd hok (by simp [update_history, load_history])
      · simpa [update_history, load_history, loaded_list] using hok.symm
      · exact absurd hok (by simp [update_history, load_history])

theorem run_history_arr (l : List Json) (i : RunInput) :
    run_history (some (.val (.arr l))) i =
      some (.val (.arr ((l ++ [entry_arabica i.price_arabica i.trade_date i.now,
        entry_conillon i.price_conilon i.trade_date i.now]).drop (l.length + 2 - 20)))) := by
  simp [run_history, update_history, load_history]

theorem run_all_length (inputs : List RunInput) :
    ∀ l : List Json, l.length ≤ 20 →
      ∃ h, run_all (some (.val (.arr l))) inputs = some (.val (.arr h)) ∧
        h.length = min 20 (l.length + 2 * inputs.length) := by
  induction inputs with
  | nil =>
      intro l hl
      exact ⟨l, rfl, by simpa using by omega⟩
  | cons i rest ih =>
      intro l hl
      have hfold : run_all (some (.val (.arr l))) (i :: rest) =
          run_all (run_history (some (.val (.arr l))) i) rest := rfl
      rw [hfold, run_history_arr]
      set l' := (l ++ [entry_arabica i.price_arabica i.trade_date i.now,
        entry_conillon i.price_conilon i.trade_date i.now]).drop (l.length + 2 - 20) with hl'
      have hlen : l'.length = (l.length + 2) - (l.length + 2 - 20) := by
        simp [hl', List.length_drop]
      obtain ⟨h, hrun, hhlen⟩ := ih l' (by omega)
      exact ⟨h, hrun, by rw [hhlen]; simp [List.length_cons]; omega⟩

theorem run_history_none (i : RunInput) :
    run_history none i =
      some (.val (.arr [entry_arabica i.price_arabica i.trade_date i.now,
        entry_conillon i.price_conilon i.trade_date i.now])) := by
  simp [run_history, update_history, load_history]

theorem replaceChar_mk (a b : Char) (l : List Char) :
    replaceChar a b (String.mk l) = String.mk (l.map fun c => if c = a then b else c) :=
  rfl

theorem group3_map (f : Char → Char) (sep : Char) :
    ∀ l : List Char, (group3 sep l).map f = group3 (f sep) (l.map f)
  | [] => rfl
  | [_] => rfl
  | [_, _] => rfl
  | [_, _, _] => rfl
  | a :: b :: c :: d :: rest => by
      show f a :: f b :: f c :: f sep :: (group3 sep (d :: rest)).map f =
        f a :: f b :: f c :: f sep :: group3 (f sep) (f d :: rest.map f)
      rw [group3_map f sep (d :: rest)]
      rfl

theorem mem_littleDigitsAux (fuel : ℕ) :
    ∀ n c, c ∈ littleDigitsAux n fuel → ∃ d, d < 10 ∧ c = digitChar d := by
  induction fuel with
  | zero =>
      intro n c hc
      cases n <;> simp [littleDigitsAux] at hc
  | succ f ih =>
      intro n c hc
      cases n with
      | zero => simp [littleDigitsAux] at hc
      | succ m =>
          rw [littleDigitsAux] at hc
          rcases List.mem_cons.mp hc with h | h
          · exact ⟨(m + 1) % 10, Nat.mod_lt _ (by omega), h⟩
          · exact ih _ _ h

theorem mem_littleDigits (n : ℕ) (c : Char) (hc : c ∈ littleDigits n) :
    ∃ d, d < 10 ∧ c = digitChar d := by
  unfold littleDigits at hc
  split at hc
  · simp at hc
    exact ⟨0, by omega, by rw [hc]; rfl⟩
  · exact mem_littleDigitsAux n n c hc

theorem map_id_of_digits (f : Char → Char)
    (hf : ∀ d, d < 10 → f (digitChar d) = digitChar d) :
    ∀ l : List Char, (∀ c ∈ l, ∃ d, d < 10 ∧ c = digitChar d) → l.map f = l := by
  intro l hl
  induction l with
  | nil => rfl
  | cons a t ih =>
      obtain ⟨d, hd, ha⟩ := hl a (by simp)
      simp only [List.map_cons, ha, hf d hd]
      rw [ih (fun c hc => hl c (by simp [hc]))]

theorem digitChar_ne (d : ℕ) (hd : d < 10) :
    digitChar d ≠ ',' ∧ digitChar d ≠ '.' ∧ digitChar d ≠ 'X' := by
  interval_cases d <;> exact ⟨by decide, by decide, by decide⟩

theorem pyFormatComma2Chars_nonneg (v : ℚ) (hv : 0 ≤ v) :
    pyFormatComma2Chars v =
      (group3 ',' (littleDigits ((roundHalfEven (100 * v)).toNat / 100))).reverse ++
        '.' :: twoDigitChars ((roundHalfEven (100 * v)).toNat % 100) := by
  simp only [pyFormatComma2Chars, abs_of_nonneg hv, if_neg (not_lt.mpr hv)]

theorem format_brl_shape (v : ℚ) (hv : 0 ≤ v) :
    format_brl v = String.mk ('R' :: '$' ::
      ((group3 '.' (littleDigits ((roundHalfEven (100 * v)).toNat / 100))).reverse ++
        ',' :: twoDigitChars ((roundHalfEven (100 * v)).toNat % 100))) := by
  have hf1 : ∀ d, d < 10 →
      (fun c => if c = ',' then 'X' else c) (digitChar d) = digitChar d := by
    intro d hd
    simp only [if_neg (digitChar_ne d hd).1]
  have hf2 : ∀ d, d < 10 →
      (fun c => if c = '.' then ',' else c) (digitChar d) = digitChar d := by
    intro d hd
    simp only [if_neg (digitChar_ne d hd).2.1]
  have hf3 : ∀ d, d < 10 →
      (fun c => if c = 'X' then '.' else c) (digitChar d) = digitChar d := by
    intro d hd
    simp only [if_neg (digitChar_ne d hd).2.2]
  have hmem : ∀ c ∈ littleDigits ((roundHalfEven (100 * v)).toNat / 100),
      ∃ d, d < 10 ∧ c = digitChar d := fun c hc => mem_littleDigits _ c hc
  have hdl1 := map_id_of_digits (fun c => if c = ',' then 'X' else c) hf1 _ hmem
  have hdl2 := map_id_of_digits (fun c => if c = '.' then ',' else c) hf2 _ hmem
  have hdl3 := map_id_of_digits (fun c => if c = 'X' then '.' else c) hf3 _ hmem
  have h100 : (roundHalfEven (100 * v)).toNat % 100 < 100 :=
    Nat.mod_lt _ (by norm_num)
  have ha : (roundHalfEven (100 * v)).toNat % 100 / 10 < 10 := by omega
  have hb : (roundHalfEven (100 * v)).toNat % 100 % 10 < 10 := by omega
  have htwo1 : (twoDigitChars ((roundHalfEven (100 * v)).toNat % 100)).map
      (fun c => if c = ',' then 'X' else c) =
      twoDigitChars ((roundHalfEven (100 * v)).toNat % 100) := by
    simp only [twoDigitChars, List.map_cons, List.map_nil, hf1 _ ha, hf1 _ hb]
  have htwo2 : (twoDigitChars ((roundHalfEven (100 * v)).toNat % 100)).map
      (fun c => if c = '.' then ',' else c) =
      twoDigitChars ((roundHalfEven (100 * v)).toNat % 100) := by
    simp only [twoDigitChars, List.map_cons, List.map_nil, hf2 _ ha, hf2 _ hb]
  have htwo3 : (twoDigitChars ((roundHalfEven (100 * v)).toNat % 100)).map
      (fun c => if c = 'X' then '.' else c) =
      twoDigitChars ((roundHalfEven (100 * v)).toNat % 100) := by
    simp only [twoDigitChars, List.map_cons, List.map_nil, hf3 _ ha, hf3 _ hb]
  rw [show format_brl v = replaceChar 'X' '.' (replaceChar '.' ','
        (replaceChar ',' 'X' (String.mk ('R' :: '$' :: pyFormatComma2Chars v))))
      from rfl,
    pyFormatComma2Chars_nonneg v hv, replaceChar_mk, replaceChar_mk, replaceChar_mk]
  congr 1
  simp [group3_map, hdl1, hdl2, hdl3, htwo1, htwo2, htwo3, -List.map_map]

/-! ## Claim theorems -/

/-- C1: after every write of `update_history` the stored sequence has length
at most 20 (precisely `min 20 (previous length + 2)`); the kept entries are
a suffix of the old sequence with the two new entries appended, so
truncation drops only from the front; and after any sequence of at least 10
runs starting from an absent or from an empty history, the stored length is
exactly 20. -/
theorem C1_history_cap :
    (∀ file pa pc td now h, update_history file pa pc td now = .ok h →
      h.length ≤ 20 ∧
      h.length = min 20 ((loaded_list file).length + 2) ∧
      h <:+ loaded_list file ++ [entry_arabica pa td now, entry_conillon pc td now]) ∧
    (∀ inputs : List RunInput, 10 ≤ inputs.length →
      (∃ h, run_all none inputs = some (.val (.arr h)) ∧ h.length = 20) ∧
      (∃ h, run_all (some (.val (.arr ([] : List Json)))) inputs = some (.val (.arr h)) ∧
        h.length = 20)) := by
  constructor
  · intro file pa pc td now h hok
    have heq := update_history_ok_eq file pa pc td now h hok
    have hlen : h.length =
        ((loaded_list file).length + 2) - (((loaded_list file).length + 2) - 20) := by
      rw [heq]
      simp [List.length_drop]
    refine ⟨by omega, by omega, ?_⟩
    rw [heq]
    exact List.drop_suffix _ _
  · intro inputs hlen
    cases inputs with
    | nil => simp at hlen
    | cons i rest =>
      have hrest : 9 ≤ rest.length := by
        simp only [List.length_cons] at hlen
        omega
      constructor
      · have hfold : run_all none (i :: rest) = run_all (run_history none i) rest := rfl
        rw [hfold, run_history_none]
        obtain ⟨h, hrun, hh⟩ := run_all_length rest
          [entry_arabica i.price_arabica i.trade_date i.now,
           entry_conillon i.price_conilon i.trade_date i.now] (by simp)
        refine ⟨h, hrun, ?_⟩
        simp only [List.length_cons] at hh
        omega
      · obtain ⟨h, hrun, hh⟩ := run_all_length (i :: rest) [] (by simp)
        refine ⟨h, hrun, ?_⟩
        simp only [List.length_cons, List.length_nil] at hh
        omega

/-- Witness for C1: a concrete first run from an absent history, and ten
concrete runs from an absent and from an empty history. -/
theorem C1_history_cap_witness :
    ([entry_arabica 2292.66 "19/09/2025" sampleNow,
      entry_conillon 1402.21 "19/09/2025" sampleNow].length ≤ 20 ∧
     [entry_arabica 2292.66 "19/09/2025" sampleNow,
      entry_conillon 1402.21 "19/09/2025" sampleNow].length =
        min 20 ((loaded_list none).length + 2) ∧
     [entry_arabica 2292.66 "19/09/2025" sampleNow,
      entry_conillon 1402.21 "19/09/2025" sampleNow] <:+
        loaded_list none ++ [entry_arabica 2292.66 "19/09/2025" sampleNow,
          entry_conillon 1402.21 "19/09/2025" sampleNow]) ∧
    ((∃ h, run_all none (List.replicate 10 sampleRun) = some (.val (.arr h)) ∧
        h.length = 20) ∧
     (∃ h, run_all (some (.val (.arr ([] : List Json)))) (List.replicate 10 sampleRun) =
        some (.val (.arr h)) ∧ h.length = 20)) :=
  ⟨C1_history_cap.1 none 2292.66 1402.21 "19/09/2025" sampleNow _ rfl,
   C1_history_cap.2 (List.replicate 10 sampleRun) (by simp)⟩

/-- C2: when the history file exists but its contents fail to parse as JSON
(`JSONDecodeError`), `update_history` succeeds, discards the old content,
and a single run writes exactly that run's two newly appended entries. -/
theorem C2_corrupt_recovery (pa pc : ℚ) (td : String) (now : PyDateTime) :
    update_history (some .corrupt) pa pc td now =
      .ok [entry_arabica pa td now, entry_conillon pc td now] := rfl

/-- C7: every successful write of `update_history` stores a (possibly
truncated) suffix of the previous entries in their original order, with the
run's two new entries at the very end: entries are oldest first, and the
most recent run's entries are always last. -/
theorem C7_append_at_end (file : Option HistoryFile) (pa pc : ℚ) (td : String)
    (now : PyDateTime) (h : List Json)
    (hok : update_history file pa pc td now = .ok h) :
    ∃ k, h = (loaded_list file).drop k ++
      [entry_arabica pa td now, entry_conillon pc td now] := by
  have heq := update_history_ok_eq file pa pc td now h hok
  refine ⟨(loaded_list file ++ [entry_arabica pa td now, entry_conillon pc td now]).length - 20,
    ?_⟩
  rw [heq]
  exact List.drop_append_of_le_length
    (by simp only [List.length_append, List.length_cons, List.length_nil]; omega)

/-- Witness for C7: the first run from an absent history file. -/
theorem C7_append_at_end_witness :
    ∃ k, [entry_arabica 2292.66 "19/09/2025" sampleNow,
           entry_conillon 1402.21 "19/09/2025" sampleNow] =
      (loaded_list none).drop k ++
        [entry_arabica 2292.66 "19/09/2025" sampleNow,
         entry_conillon 1402.21 "19/09/2025" sampleNow] :=
  C7_append_at_end none 2292.66 1402.21 "19/09/2025" sampleNow _ rfl

/-- C9: the silent-discard recovery applies only to JSON decode failures:
when the history file holds syntactically valid JSON that is not an array
(an object, string, number, boolean or null), `update_history` raises the
uncaught `AttributeError` from `history.append`, and the run leaves the
file unchanged. -/
theorem C9_nonarray_fails (j : Json) (hj : ∀ elems, j ≠ .arr elems)
    (pa pc : ℚ) (td : String) (now : PyDateTime) :
    update_history (some (.val j)) pa pc td now = .error "AttributeError" ∧
    ∀ i : RunInput, run_history (some (.val j)) i = some (.val j) := by
  have herr : load_history (some (.val j)) = .error "AttributeError" := by
    rcases j with _ | b | q | s | elems | fields
    · rfl
    · rfl
    · rfl
    · rfl
    · exact absurd rfl (hj elems)
    · rfl
  refine ⟨?_, fun i => ?_⟩
  · simp [update_history, herr]
  · simp [run_history, update_history, herr]

/-- Witness for C9: a history file holding the valid JSON object
`\x7b"a": null\x7d`. -/
theorem C9_nonarray_fails_witness :
    (∀ elems, Json.obj [("a", Json.null)] ≠ .arr elems) ∧
    (update_history (some (.val (.obj [("a", Json.null)]))) 2292.66 1402.21
        "19/09/2025" sampleNow = .error "AttributeError" ∧
     ∀ i : RunInput, run_history (some (.val (.obj [("a", Json.null)]))) i =
        some (.val (.obj [("a", Json.null)]))) :=
  ⟨fun _ h => Json.noConfusion h,
   C9_nonarray_fails _ (fun _ h => Json.noConfusion h) 2292.66 1402.21
     "19/09/2025" sampleNow⟩

/-- C3 (counterexample): the claim says the snapshot's `pregao_aberto`
field is determined by the capture timestamp passed to `update_prices`, and
that a Saturday capture yields `false`.  But `is_market_open` calls
`datetime.now()` itself: with a Saturday capture timestamp and a Monday
wall clock the written field is `true`. -/
theorem C3_market_open_counterexample :
    saturdayNow.weekday = 5 ∧
    jlookup (update_prices 2292.66 1402.21 "20/09/2025" saturdayNow mondayClock)
      "pregao_aberto" = some (.bool true) :=
  ⟨rfl, rfl⟩

/-- C3 (amended): the snapshot's `pregao_aberto` field equals
`is_market_open` evaluated on the wall-clock datetime read inside the
writer, which is `true` exactly when that clock's weekday is Monday through
Friday; a weekend wall clock yields `false` regardless of the prices and of
the capture timestamp argument. -/
theorem C3_market_open_from_clock (pa pc : ℚ) (td : String)
    (now clock : PyDateTime) :
    jlookup (update_prices pa pc td now clock) "pregao_aberto" =
      some (.bool (is_market_open clock)) ∧
    (is_market_open clock = true ↔ clock.weekday < 5) ∧
    (5 ≤ clock.weekday →
      jlookup (update_prices pa pc td now clock) "pregao_aberto" =
        some (.bool false)) := by
  refine ⟨rfl, by simp [is_market_open], fun h5 => ?_⟩
  have h1 : jlookup (update_prices pa pc td now clock) "pregao_aberto" =
      some (.bool (is_market_open clock)) := rfl
  have h2 : is_market_open clock = false := by
    simp only [is_market_open, decide_eq_false_iff_not]
    omega
  rw [h1, h2]

/-- Witness for the amended C3: a Saturday wall clock. -/
theorem C3_market_open_from_clock_witness :
    (jlookup (update_prices 2292.66 1402.21 "19/09/2025" sampleNow saturdayNow)
        "pregao_aberto" = some (.bool (is_market_open saturdayNow))) ∧
    ((5 : ℕ) ≤ saturdayNow.weekday ∧
      jlookup (update_prices 2292.66 1402.21 "19/09/2025" sampleNow saturdayNow)
        "pregao_aberto" = some (.bool false)) :=
  ⟨(C3_market_open_from_clock 2292.66 1402.21 "19/09/2025" sampleNow saturdayNow).1,
   by decide,
   (C3_market_open_from_clock 2292.66 1402.21 "19/09/2025" sampleNow saturdayNow).2.2
     (by decide)⟩

/-- C4 (counterexample): the claim says each appended entry carries
`type: "arabica" | "conilon"`, but the conilon entry written by the code
carries the deliberate double-l spelling `"conillon"`. -/
theorem C4_entry_type_counterexample :
    update_history none 2292.66 1402.21 "19/09/2025" sampleNow =
      .ok [.obj [("referente_a", .str "19/09/2025"),
                 ("coletado_em", .str "2025-09-19T18:20:18"),
                 ("produto", .str "cafe"), ("tipo", .str "arabica"),
                 ("valor", .num 2292.66), ("unidade", .str "saca"),
                 ("moeda", .str "BRL")],
           .obj [("referente_a", .str "19/09/2025"),
                 ("coletado_em", .str "2025-09-19T18:20:18"),
                 ("produto", .str "cafe"), ("tipo", .str "conillon"),
                 ("valor", .num 1402.21), ("unidade", .str "saca"),
                 ("moeda", .str "BRL")]] ∧
    ("conillon" : String) ≠ "conilon" :=
  ⟨rfl, by decide⟩

/-- C4 (amended): every successful run of `update_history` appends exactly
two entries at the end of the stored sequence, of the shape
`referente_a / coletado_em / produto: "cafe" / tipo: "arabica" | "conillon"
/ valor / unidade: "saca" / moeda: "BRL"` (note the double-l `"conillon"`),
both carrying the run's trade date and capture timestamp. -/
theorem C4_two_typed_entries (file : Option HistoryFile) (pa pc : ℚ)
    (td : String) (now : PyDateTime) (h : List Json)
    (hok : update_history file pa pc td now = .ok h) :
    2 ≤ h.length ∧
    h.drop (h.length - 2) =
      [.obj [("referente_a", .str td), ("coletado_em", .str now.iso),
             ("produto", .str "cafe"), ("tipo", .str "arabica"),
             ("valor", .num pa), ("unidade", .str "saca"),
             ("moeda", .str "BRL")],
       .obj [("referente_a", .str td), ("coletado_em", .str now.iso),
             ("produto", .str "cafe"), ("tipo", .str "conillon"),
             ("valor", .num pc), ("unidade", .str "saca"),
             ("moeda", .str "BRL")]] := by
  have heq := update_history_ok_eq file pa pc td now h hok
  have hm : (loaded_list file ++ [entry_arabica pa td now, entry_conillon pc td now]).length
      - 20 ≤ (loaded_list file).length := by
    simp only [List.length_append, List.length_cons, List.length_nil]
    omega
  have h2 : h = (loaded_list file).drop
      ((loaded_list file ++ [entry_arabica pa td now, entry_conillon pc td now]).length - 20)
      ++ [entry_arabica pa td now, entry_conillon pc td now] := by
    rw [heq]
    exact List.drop_append_of_le_length hm
  constructor
  · rw [h2]
    simp only [List.length_append, List.length_cons, List.length_nil]
    omega
  · have h3 : h.length - 2 = ((loaded_list file).drop
        ((loaded_list file ++ [entry_arabica pa td now, entry_conillon pc td now]).length
          - 20)).length := by
      rw [h2]
      simp only [List.length_append, List.length_cons, List.length_nil]
      omega
    rw [h3, h2, List.drop_left]
    rfl

/-- Witness for the amended C4: the first run from an absent history. -/
theorem C4_two_typed_entries_witness :
    2 ≤ [entry_arabica 2292.66 "19/09/2025" sampleNow,
         entry_conillon 1402.21 "19/09/2025" sampleNow].length ∧
    [entry_arabica 2292.66 "19/09/2025" sampleNow,
     entry_conillon 1402.21 "19/09/2025" sampleNow].drop
      ([entry_arabica 2292.66 "19/09/2025" sampleNow,
        entry_conillon 1402.21 "19/09/2025" sampleNow].length - 2) =
      [.obj [("referente_a", .str "19/09/2025"),
             ("coletado_em", .str sampleNow.iso),
             ("produto", .str "cafe"), ("tipo", .str "arabica"),
             ("valor", .num 2292.66), ("unidade", .str "saca"),
             ("moeda", .str "BRL")],
       .obj [("referente_a", .str "19/09/2025"),
             ("coletado_em", .str sampleNow.iso),
             ("produto", .str "cafe"), ("tipo", .str "conillon"),
             ("valor", .num 1402.21), ("unidade", .str "saca"),
             ("moeda", .str "BRL")]] :=
  C4_two_typed_entries none 2292.66 1402.21 "19/09/2025" sampleNow _ rfl

/-- C8: the display patcher writes nothing and reports no error when the
document is absent, and when the document exists but one of the two anchor
elements is missing, that anchor is skipped while the other is still
patched and the document is still rewritten. -/
theorem C8_patcher_missing_targets (a c : ℚ) :
    update_index_html none a c = none ∧
    (∀ d : IndexHtml, d.preco_arabica = none →
      update_index_html (some d) a c =
        some ⟨none, d.preco_robusta.map fun _ => format_brl c, d.rest⟩) ∧
    (∀ d : IndexHtml, d.preco_robusta = none →
      update_index_html (some d) a c =
        some ⟨d.preco_arabica.map fun _ => format_brl a, none, d.rest⟩) := by
  refine ⟨rfl, fun d hd => ?_, fun d hd => ?_⟩
  · obtain ⟨pa, pr, r⟩ := d
    simp only at hd
    subst hd
    cases pr <;> rfl
  · obtain ⟨pa, pr, r⟩ := d
    simp only at hd
    subst hd
    cases pa <;> rfl

/-- Witness for C8: concrete documents with one anchor missing each. -/
theorem C8_patcher_missing_targets_witness :
    update_index_html none 2292.66 1402.21 = none ∧
    ((⟨none, some "old", "doc"⟩ : IndexHtml).preco_arabica = none ∧
      update_index_html (some ⟨none, some "old", "doc"⟩) 2292.66 1402.21 =
        some ⟨none, (Option.some "old").map fun _ => format_brl 1402.21, "doc"⟩) ∧
    ((⟨some "old", none, "doc"⟩ : IndexHtml).preco_robusta = none ∧
      update_index_html (some ⟨some "old", none, "doc"⟩) 2292.66 1402.21 =
        some ⟨(Option.some "old").map fun _ => format_brl 2292.66, none, "doc"⟩) :=
  ⟨(C8_patcher_missing_targets 2292.66 1402.21).1,
   ⟨rfl, (C8_patcher_missing_targets 2292.66 1402.21).2.1 _ rfl⟩,
   ⟨rfl, (C8_patcher_missing_targets 2292.66 1402.21).2.2 _ rfl⟩⟩

/-- C10: the snapshot written by `update_prices` is identical for any two
trade-date arguments when the prices, capture timestamp and wall clock
agree: the snapshot's formatted date and update time come from the capture
timestamp, and the fetched reference date appears nowhere in it. -/
theorem C10_snapshot_ignores_trade_date (pa pc : ℚ) (td td' : String)
    (now clock : PyDateTime) :
    update_prices pa pc td now clock = update_prices pa pc td' now clock ∧
    jlookup (update_prices pa pc td now clock) "data_formatada" =
      some (.str now.dmy) ∧
    jlookup (update_prices pa pc td now clock) "ultima_atualizacao" =
      some (.str now.iso) :=
  ⟨rfl, rfl, rfl⟩

/-- C5: for every (nonnegative) price value, `format_brl` produces the
value rounded to exactly two decimal places, rendered with `.` as the
thousands separator and `,` as the decimal separator and prefixed with
`R$`; in particular 2292.655 formats to `"R$2.292,66"`. -/
theorem C5_format_brl :
    (∀ v : ℚ, 0 ≤ v →
      format_brl v = String.mk ('R' :: '$' ::
        ((group3 '.' (littleDigits ((roundHalfEven (100 * v)).toNat / 100))).reverse ++
          ',' :: twoDigitChars ((roundHalfEven (100 * v)).toNat % 100))) ∧
      (twoDigitChars ((roundHalfEven (100 * v)).toNat % 100)).length = 2) ∧
    format_brl (2292.655 : ℚ) = "R$2.292,66" :=
  ⟨fun v hv => ⟨format_brl_shape v hv, rfl⟩, by with_unfolding_all rfl⟩

/-- Witness for C5: the formatter evaluated at the conilon price 1402.21. -/
theorem C5_format_brl_witness :
    (0 : ℚ) ≤ 1402.21 ∧
    (format_brl 1402.21 = String.mk ('R' :: '$' ::
        ((group3 '.' (littleDigits ((roundHalfEven ((100 : ℚ) * 1402.21)).toNat / 100))).reverse ++
          ',' :: twoDigitChars ((roundHalfEven ((100 : ℚ) * 1402.21)).toNat % 100))) ∧
      (twoDigitChars ((roundHalfEven ((100 : ℚ) * 1402.21)).toNat % 100)).length = 2) :=
  ⟨by norm_num, C5_format_brl.1 1402.21 (by norm_num)⟩

/-- C6: when the first row has at least two cells, `parse_price` returns
the stripped text of cell 0 unchanged together with the number obtained
from the stripped text of cell 1 by deleting every `.`, replacing `,` by
`.`, and parsing as a decimal number; concretely, cells
`"19/09/2025" / "2.292,66"` parse to `("19/09/2025", 2292.66)`. -/
theorem C6_parse_price_cells (c0 c1 : String) (rest : List String) (q : ℚ)
    (hq : pyFloat (replaceChar ',' '.' (removeChar '.' (pyStrip c1))) = some q) :
    parse_price (c0 :: c1 :: rest) = some (pyStrip c0, q) ∧
    parse_price [" 19/09/2025 ", "2.292,66"] = some ("19/09/2025", 2292.66) := by
  refine ⟨?_, by with_unfolding_all rfl⟩
  simp only [parse_price, hq]

/-- Witness for C6: the concrete cell texts of the worked example. -/
theorem C6_parse_price_cells_witness :
    pyFloat (replaceChar ',' '.' (removeChar '.' (pyStrip "2.292,66"))) =
      some (2292.66 : ℚ) ∧
    parse_price ["19/09/2025", "2.292,66"] =
      some (pyStrip "19/09/2025", (2292.66 : ℚ)) :=
  ⟨by with_unfolding_all rfl,
   (C6_parse_price_cells "19/09/2025" "2.292,66" [] 2292.66
     (by with_unfolding_all rfl)).1⟩

end CotacoesCafe
